import Mathlib

/- Shallow embedding of the Excel mock-interview core of whyvineet/coding-ninja
(`src/agent.py` and `src/evaluation.py`).

Scores are embedded as rationals: every numeric constant the code compares or
adds (8.5, 4.0, 0.3, 0.5, ...) is an exact decimal, so exact arithmetic agrees
with the comparisons the Python code performs.  Calls to the external LLM are
modelled as oracle inputs: each retry loop receives a list of optional raw
JSON responses, with `none` standing for a transport or parse failure.
`time.sleep`, logging and wall-clock timestamps are not modelled. -/

namespace ExcelInterview

/-- Python `round(x, 1)`: round to one decimal place.  Every score produced in
this development is a multiple of 0.1 before rounding, where all rounding
modes agree, so Mathlib's `round` is a faithful model of Python's. -/
def round1 (q : ℚ) : ℚ := ((round (q * 10) : ℤ) : ℚ) / 10

/-- Python substring test `needle in hay`. -/
def strContains (hay needle : String) : Bool :=
  hay.toList.tails.any (fun t => needle.toList.isPrefixOf t)

/-- Python `str.lower()` (character-wise, structurally recursive so that
concrete evaluation reduces). -/
def pyLower (s : String) : String := String.mk (s.toList.map Char.toLower)

/-- Python `str.upper()`. -/
def pyUpper (s : String) : String := String.mk (s.toList.map Char.toUpper)

/-- Python `str.strip()`: drop whitespace from both ends. -/
def pyStrip (s : String) : String :=
  String.mk (((s.toList.dropWhile Char.isWhitespace).reverse.dropWhile
    Char.isWhitespace).reverse)

/-- Worker for `pyWords`: split at every whitespace character. -/
def splitWsGo : List Char → List Char → List String
  | [], acc => [String.mk acc.reverse]
  | c :: cs, acc =>
    if c.isWhitespace then String.mk acc.reverse :: splitWsGo cs []
    else splitWsGo cs (c :: acc)

/-- Python `str.split()` with no separator: split on whitespace, dropping the
empty pieces, so runs of whitespace and leading/trailing whitespace do not
produce words. -/
def pyWords (s : String) : List String :=
  (splitWsGo s.toList []).filter (fun w => w ≠ "")

/-- Replace the last element of a list with `f` of it (the Python code mutates
`history[-1]` in place). -/
def updateLast (f : α → α) : List α → List α
  | [] => []
  | [x] => [f x]
  | x :: y :: xs => x :: updateLast f (y :: xs)

/-- First successful attempt of a retry loop. -/
def firstSome : List (Option α) → Option α
  | [] => none
  | none :: rest => firstSome rest
  | some a :: _ => some a

/-- Python `sum(l) / len(l) if l else 0`. -/
def meanD (l : List ℚ) : ℚ := if l = [] then 0 else l.sum / (l.length : ℚ)

/- ## Data model of `agent.py` -/

/-- `InterviewPhase` enum. -/
inductive InterviewPhase where
  | introduction
  | questioning
  | wrap_up
  | completed
deriving DecidableEq

/-- The `.value` attribute of the Python enum. -/
def InterviewPhase.value : InterviewPhase → String
  | .introduction => "introduction"
  | .questioning => "questioning"
  | .wrap_up => "wrap_up"
  | .completed => "completed"

/-- `QuestionHistory` dataclass (the `timestamp` field, wall-clock time, is
not modelled). -/
structure QuestionHistory where
  question_id : Nat
  question_text : String
  question_type : String
  difficulty_level : Int
  skill_area : String := "General Excel"
  answer : Option String := none
  file_upload : Option String := none
  score : Option ℚ := none
  feedback : Option String := none
  strengths : List String := []
  improvements : List String := []
deriving DecidableEq

/-- `InterviewState` dataclass.  The `session_id` default factory derives a
fresh id from the wall clock; embeddings of the operations that create a state
take the generated id as a parameter. -/
structure InterviewState where
  candidate_name : Option String := none
  current_phase : InterviewPhase := .introduction
  question_count : Nat := 0
  max_questions : Nat := 5
  current_difficulty : Int := 2
  question_history : List QuestionHistory := []
  overall_score : Option ℚ := none
  session_id : String := ""
deriving DecidableEq

/- ## Evaluator (`evaluation.py`) -/

/-- `EvaluationResult` dataclass. -/
structure EvaluationResult where
  score : ℚ
  feedback : String
  strengths : List String
  improvements : List String
  category_scores : List (String × ℚ) := []
deriving DecidableEq

/-- Raw JSON object an LLM scoring call parses into; every field optional. -/
structure RawEval where
  overall_score : Option ℚ := none
  detailed_feedback : Option String := none
  strengths : Option (List String) := none
  improvements : Option (List String) := none
  category_scores : Option (List (String × ℚ)) := none
deriving DecidableEq

/-- `_validate_evaluation_response`: both required fields present, the score
numeric and in [0,10], the feedback truthy with at least 10 characters after
strip.  (The list-typing checks on strengths and improvements hold by
construction in this typed embedding.) -/
def validateEvaluationResponse (r : RawEval) : Bool :=
  match r.overall_score, r.detailed_feedback with
  | some s, some f =>
    decide (0 ≤ s) && decide (s ≤ 10) && (f != "") && decide (10 ≤ (pyStrip f).length)
  | _, _ => false

/-- Success branch of `evaluate_text_answer`: defaults filled in via
`setdefault`, score clamped to [0,10]. -/
def mkTextLLMResult (r : RawEval) : EvaluationResult :=
  { score := max 0 (min 10 (r.overall_score.getD 0)),
    feedback := r.detailed_feedback.getD "",
    strengths := r.strengths.getD ["Shows understanding of the topic"],
    improvements := r.improvements.getD ["Consider providing more specific details"],
    category_scores := r.category_scores.getD [] }

/-- Keyword list of `_create_basic_text_evaluation`. -/
def excelTerms : List String :=
  ["excel", "formula", "function", "cell", "range", "worksheet", "data", "chart"]

/-- `_create_basic_text_evaluation`: the deterministic heuristic used when the
LLM text path is exhausted. -/
def createBasicTextEvaluation (answer : String) : EvaluationResult :=
  let word_count := (pyWords answer).length
  let lenAdj : ℚ :=
    if 50 ≤ word_count then 1
    else if 25 ≤ word_count then 1 / 2
    else if word_count < 10 then -2
    else 0
  let found := excelTerms.filter (fun t => strContains (pyLower answer) (pyLower t))
  let score := (5 : ℚ) + lenAdj + min 2 ((found.length : ℚ) * (3 / 10))
  { score := round1 (max 1 (min 10 score)),
    feedback := "Basic evaluation completed. For detailed feedback, please ensure stable connection and try again.",
    strengths := ["Provided a response to the question"],
    improvements := ["Consider providing more detailed explanations with specific Excel examples"] }

/-- One attempt of the text-scoring retry loop: `none` is a transport failure;
a response failing validation raises in Python and behaves identically. -/
def textLLMAttempt (o : Option RawEval) : Option EvaluationResult :=
  o.bind (fun r => if validateEvaluationResponse r then some (mkTextLLMResult r) else none)

/-- `evaluate_text_answer`: try the LLM path (3 attempts in the source, one
oracle entry per attempt), fall back to the heuristic.  The question payload
only enters the opaque LLM prompt and is therefore not a parameter. -/
def evaluate_text_answer (attempts : List (Option RawEval)) (answer : String) : EvaluationResult :=
  match firstSome (attempts.map textLLMAttempt) with
  | some res => res
  | none => createBasicTextEvaluation answer

/-- A cell of the active worksheet as openpyxl presents it: its coordinate,
and its value when that value is a string (non-string or empty values never
count as formulas). -/
structure Cell where
  coordinate : String
  strValue : Option String := none
deriving DecidableEq

structure Worksheet where
  cells : List Cell := []
  charts_count : Nat := 0
deriving DecidableEq

/-- Result of a successful `openpyxl.load_workbook`. -/
structure Workbook where
  worksheets_count : Nat := 1
  active : Worksheet := {}
deriving DecidableEq

/-- Result of a successful `pd.read_excel`. -/
structure DataFrame where
  rows : Nat := 0
  columns : List String := []
  numeric_columns : List String := []
  object_columns : Bool := true
deriving DecidableEq

/-- `df.empty`: true when either axis has length 0. -/
def DataFrame.isEmpty (df : DataFrame) : Bool := df.rows == 0 || df.columns.isEmpty

structure DataSummary where
  rows : Nat
  columns : Nat
  column_names : List String
  numeric_columns : List String
  has_headers : Bool
deriving DecidableEq

/-- The analysis record built by `_comprehensive_excel_analysis`. -/
structure ExcelAnalysis where
  file_readable : Bool := false
  worksheets_count : Nat := 0
  data_present : Bool := false
  formulas : List (String × String) := []
  charts_count : Nat := 0
  pivot_tables : Nat := 0
  functions_used : List String := []
  data_summary : Option DataSummary := none
  formatting_features : List String := []
  errors : List String := []
deriving DecidableEq

/-- Worker for `scanFuncs`; structural recursion on a fuel bound. -/
def scanFuncsGo : Nat → List Char → List String
  | 0, _ => []
  | _ + 1, [] => []
  | fuel + 1, c :: cs =>
    if decide ('A' ≤ c) && decide (c ≤ 'Z') then
      let run := c :: cs.takeWhile (fun d => decide ('A' ≤ d) && decide (d ≤ 'Z'))
      let rest := cs.dropWhile (fun d => decide ('A' ≤ d) && decide (d ≤ 'Z'))
      match rest with
      | '(' :: rest2 => String.mk run :: scanFuncsGo fuel rest2
      | _ => scanFuncsGo fuel rest
    else scanFuncsGo fuel cs

/-- All matches of the function-name pattern (a maximal run of capital
letters immediately followed by an opening parenthesis), scanned left to
right without overlap, exactly as `re.findall` reports them on the
upper-cased formula.  Every recursive step of the worker strictly shrinks the
list, so fuel equal to the length is always enough. -/
def scanFuncs (l : List Char) : List String := scanFuncsGo l.length l

/-- A cell counts as a formula when its value is a truthy string starting
with an equals sign. -/
def isFormulaCell (c : Cell) : Bool :=
  match c.strValue with
  | some v =>
    match v.toList with
    | '=' :: _ => true
    | _ => false
  | none => false

/-- `_comprehensive_excel_analysis`.  The two external parsing capabilities
(openpyxl and pandas) are supplied as outcomes.  The Python function wraps the
workbook analysis in an outer try/except and the pandas read in an inner one,
recording failures in the `errors` list, so it is total: no input makes it
raise.  When the workbook load fails, the pandas read (inside the same try
block, after the failure point) is never reached.  `functions_used` is a
Python set serialised in unspecified order; first-appearance order is used
here, and nothing downstream depends on the order. -/
def comprehensiveExcelAnalysis (wb : Except String Workbook)
    (pdr : Except String DataFrame) : ExcelAnalysis :=
  match wb with
  | .error e => { errors := ["File analysis error: " ++ e] }
  | .ok w =>
    let formulas := (w.active.cells.filter isFormulaCell).map
      (fun c => (c.coordinate, c.strValue.getD ""))
    let funcs := formulas.foldl
      (fun acc f => (scanFuncs (pyUpper f.2).toList).foldl
        (fun acc2 fn => if fn ∈ acc2 then acc2 else acc2 ++ [fn]) acc) []
    let base : ExcelAnalysis :=
      { file_readable := true
        worksheets_count := w.worksheets_count
        formulas := formulas
        charts_count := w.active.charts_count
        functions_used := funcs }
    match pdr with
    | .error e => { base with errors := ["Data reading error: " ++ e] }
    | .ok df =>
      if df.isEmpty then base
      else
        { base with
            data_present := true
            data_summary := some
              { rows := df.rows
                columns := df.columns.length
                column_names := df.columns.take 10
                numeric_columns := df.numeric_columns
                has_headers := df.object_columns } }

/-- Success branch of `_llm_excel_evaluation` (different setdefault texts from
the text path, same clamp). -/
def mkExcelLLMResult (r : RawEval) : EvaluationResult :=
  { score := max 0 (min 10 (r.overall_score.getD 0)),
    feedback := r.detailed_feedback.getD "",
    strengths := r.strengths.getD ["File uploaded successfully"],
    improvements := r.improvements.getD ["Consider adding more comprehensive documentation"],
    category_scores := r.category_scores.getD [] }

/-- One attempt of the Excel LLM scoring retry loop. -/
def excelLLMAttempt (o : Option RawEval) : Option EvaluationResult :=
  o.bind (fun r => if validateEvaluationResponse r then some (mkExcelLLMResult r) else none)

/-- Advanced-function set checked by `_analysis_based_evaluation`. -/
def advancedFunctions : List String :=
  ["VLOOKUP", "INDEX", "MATCH", "SUMIF", "COUNTIF", "PIVOT"]

/-- `_analysis_based_evaluation`: deterministic scoring from the analysis
record when the Excel LLM path is exhausted.  On an unreadable file the score
is set (not decremented) to 2.0 before the remaining deductions apply.  The
advanced-function strength joins the matched names in first-appearance order
(Python joins a set in unspecified order; no claim depends on that string). -/
def analysisBasedEvaluation (analysis : ExcelAnalysis) : EvaluationResult :=
  let readable := analysis.file_readable
  let s1 : ℚ := if readable then 5 else 2
  let fparts : List String := if readable then [] else ["File could not be read properly."]
  let st1 : List String := if readable then ["File is properly formatted and readable"] else []
  let im1 : List String :=
    if readable then [] else ["Ensure file is in correct Excel format (.xlsx or .xls)"]
  let s2 := if analysis.data_present then s1 + 1 else s1 - 1
  let st2 := if analysis.data_present then st1 ++ ["Contains data as expected"] else st1
  let im2 := if analysis.data_present then im1
             else im1 ++ ["Include relevant data in the spreadsheet"]
  let usedAdvanced := analysis.functions_used.filter (fun f => f ∈ advancedFunctions)
  let s3 := if analysis.formulas ≠ [] then
              (if usedAdvanced ≠ [] then s2 + 3 / 2 + 1 else s2 + 3 / 2)
            else s2 - 1
  let st3 := if analysis.formulas ≠ [] then
               st2 ++ (["Uses " ++ toString analysis.formulas.length ++ " formulas"] ++
                 (if usedAdvanced ≠ [] then
                    ["Uses advanced functions: " ++ String.intercalate ", " usedAdvanced]
                  else []))
             else st2
  let im3 := if analysis.formulas ≠ [] then im2
             else im2 ++ ["Include relevant formulas to solve the problem"]
  let s4 := if 0 < analysis.charts_count then s3 + 1 / 2 else s3
  let st4 := if 0 < analysis.charts_count then
               st3 ++ ["Includes " ++ toString analysis.charts_count ++ " chart(s)"]
             else st3
  let s5 := if analysis.errors ≠ [] then s4 - 1 / 2 else s4
  let im4 := if analysis.errors ≠ [] then im3 ++ ["Address file structure issues"] else im3
  { score := round1 (max 1 (min 10 s5)),
    feedback := "Analysis-based evaluation: " ++
      (if fparts = [] then "Basic Excel file analysis completed."
       else String.intercalate " " fparts),
    strengths := st4,
    improvements := im4 }

/-- The `EvaluationResult` built by the outer exception handler of
`evaluate_excel_upload`.  This handler is unreachable:
`_comprehensive_excel_analysis` traps every parse failure in-band and both
scoring fallbacks are total, so no exception reaches it. -/
def excelFileErrorResult (msg : String) : EvaluationResult :=
  { score := 2,
    feedback := "Unable to process Excel file: " ++ msg ++
      ". Please ensure the file is a valid Excel format (.xlsx or .xls) and try again.",
    strengths := [],
    improvements := ["Verify file format and structure", "Ensure file is not corrupted",
                     "Try uploading the file again"] }

/-- `evaluate_excel_upload`: analyze the bytes (errors recorded in-band), try
the LLM path (3 attempts), else the analysis-based fallback.  The task
description only enters the opaque LLM prompt. -/
def evaluate_excel_upload (wb : Except String Workbook) (pdr : Except String DataFrame)
    (attempts : List (Option RawEval)) : EvaluationResult :=
  let analysis := comprehensiveExcelAnalysis wb pdr
  match firstSome (attempts.map excelLLMAttempt) with
  | some res => res
  | none => analysisBasedEvaluation analysis

/- ## Report builder (`create_performance_report`) -/

/-- `_get_performance_level` of `evaluation.py`. -/
def reportPerformanceLevel (score : ℚ) : String :=
  if 17 / 2 ≤ score then "Expert"
  else if 7 ≤ score then "Advanced"
  else if 5 ≤ score then "Intermediate"
  else if 3 ≤ score then "Beginner"
  else "Needs Improvement"

/-- Per-skill accumulator of the grouping loop. -/
structure GroupData where
  scores : List ℚ := []
  questions : Nat := 0
deriving DecidableEq

/-- One iteration of the skill-breakdown grouping loop: create the entry on
first sight (at the end, in dict insertion order), bump its question counter,
and append the score when one is recorded. -/
def addToGroup (m : List (String × GroupData)) (skill : String) (score : Option ℚ) :
    List (String × GroupData) :=
  if skill ∈ m.map Prod.fst then
    m.map (fun p =>
      if p.1 = skill then
        (p.1, { questions := p.2.questions + 1, scores := p.2.scores ++ score.toList })
      else p)
  else
    m ++ [(skill, { questions := 1, scores := score.toList })]

/-- `_generate_recommendations`.  The final `list(set(...))` dedups in
unspecified set order; first-occurrence order is used here. -/
def generateRecommendations (overall : ℚ) (skillAvgs : List (String × ℚ))
    (improvements : List String) : List String :=
  let base :=
    if overall < 5 then
      ["Start with Excel basics: cell references, simple formulas, and basic functions",
       "Practice using SUM, AVERAGE, COUNT functions regularly"]
    else if overall < 7 then
      ["Focus on intermediate Excel features like VLOOKUP and pivot tables",
       "Learn conditional formatting and data validation"]
    else
      ["Explore advanced Excel features like Power Query and Power Pivot",
       "Consider learning VBA for automation"]
  let weak := (skillAvgs.filter (fun p => p.2 < overall - 1)).map Prod.fst
  let skillRecs := weak.foldl (fun acc skill =>
    if strContains (pyLower skill) "lookup" then
      acc ++ ["Practice VLOOKUP, INDEX/MATCH functions with different datasets"]
    else if strContains (pyLower skill) "pivot" then
      acc ++ ["Create pivot tables with various data sources and analyze trends"]
    else if strContains (pyLower skill) "chart" then
      acc ++ ["Learn different chart types and when to use each effectively"]
    else if strContains (pyLower skill) "formula" then
      acc ++ ["Study array formulas and nested function combinations"]
    else acc) []
  let common := (improvements.filter (fun i => 1 < improvements.count i)).take 3
  let impRecs := common.foldl (fun acc imp =>
    if strContains (pyLower imp) "example" then
      acc ++ ["Practice explaining Excel concepts with real-world examples"]
    else if strContains (pyLower imp) "detail" then
      acc ++ ["Work on providing more comprehensive explanations"]
    else acc) []
  (base ++ skillRecs ++ impRecs).eraseDups

structure ReportSkillEntry where
  average_score : ℚ
  questions_asked : Nat
  performance_level : String
deriving DecidableEq

structure DetailedQuestion where
  question_number : Nat
  question_text : String
  skill_area : String
  difficulty_level : Int
  score : Option ℚ
  feedback : String
  strengths : List String
  improvements : List String
deriving DecidableEq

/-- The report dict (`interview_date`, wall-clock time, is not modelled). -/
structure Report where
  candidate_name : String
  session_id : String
  overall_score : ℚ
  performance_level : String
  total_questions : Nat
  questions_completed : Nat
  skill_breakdown : List (String × ReportSkillEntry)
  strengths : List String
  improvements : List String
  recommendations : List String
  detailed_questions : List DetailedQuestion
deriving DecidableEq

/-- The slice of `get_interview_summary` that `create_performance_report`
consumes. -/
structure InterviewSummary where
  candidate_name : Option String := none
  session_id : String := ""
  question_history : List QuestionHistory := []
deriving DecidableEq

/-- Return shape of `create_performance_report`; `report := none` models the
empty `{}` payload of the no-data branch. -/
structure ReportResult where
  error : Option String := none
  report : Option Report := none
deriving DecidableEq

/-- The report built by `create_performance_report` for a non-empty history
(the body of its success branch, named so that theorems can speak about it).
Strengths, improvements and recommendations pass through `list(set(...))` in
Python (unspecified order); first-occurrence dedup is used here. -/
def buildReport (d : InterviewSummary) : Report :=
  let questions := d.question_history
  let scores := questions.filterMap (fun q => q.score)
  let overall := meanD scores
  let groups := questions.foldl (fun m q => addToGroup m q.skill_area q.score) []
  let withAvg : List (String × GroupData × ℚ) :=
    groups.map (fun p => (p.1, p.2, meanD p.2.scores))
  let all_strengths := questions.foldl (fun acc q => acc ++ q.strengths) []
  let all_improvements := questions.foldl (fun acc q => acc ++ q.improvements) []
  { candidate_name := d.candidate_name.getD "Unknown"
    session_id := d.session_id
    overall_score := round1 overall
    performance_level := reportPerformanceLevel overall
    total_questions := questions.length
    questions_completed := (questions.filter (fun q => q.score.isSome)).length
    skill_breakdown := withAvg.map (fun p =>
      (p.1, { average_score := round1 p.2.2
              questions_asked := p.2.1.questions
              performance_level := reportPerformanceLevel p.2.2 }))
    strengths := all_strengths.eraseDups
    improvements := all_improvements.eraseDups
    recommendations := generateRecommendations overall
      (withAvg.map (fun p => (p.1, p.2.2))) all_improvements
    detailed_questions := questions.enum.map (fun iq =>
      { question_number := iq.1 + 1
        question_text := iq.2.question_text
        skill_area := iq.2.skill_area
        difficulty_level := iq.2.difficulty_level
        score := iq.2.score
        feedback := iq.2.feedback.getD ""
        strengths := iq.2.strengths
        improvements := iq.2.improvements }) }

/-- `create_performance_report`: the no-data error on an empty history, else
the built report. -/
def create_performance_report (d : InterviewSummary) : ReportResult :=
  if d.question_history = [] then
    { error := some "No interview data available", report := none }
  else
    { error := none, report := some (buildReport d) }

/- ## Interview agent (`agent.py`) -/

/-- The fixed 7-entry skill catalog. -/
def skillAreas : List String :=
  ["Basic Functions (SUM, AVERAGE, COUNT)",
   "Lookup Functions (VLOOKUP, INDEX/MATCH)",
   "Pivot Tables and Data Analysis",
   "Data Validation and Conditional Formatting",
   "Advanced Formulas and Array Functions",
   "Charts and Visualization",
   "Data Cleaning and Transformation"]

/-- `InterviewAgent` instance state: the optional evaluator, the interview
state, and the tested-skill set (kept as an insertion-ordered duplicate-free
list; Python keeps a set and only membership is ever consulted). -/
structure Agent where
  evaluatorPresent : Bool := true
  state : InterviewState := {}
  tested_skills : List String := []
deriving DecidableEq

/-- The available-skill computation of `_generate_next_question`: catalog
entries not yet tested, or the whole catalog again once all are tested. -/
def availableSkills (tested : List String) : List String :=
  let av := skillAreas.filter (fun s => s ∉ tested)
  if av = [] then skillAreas else av

/-- Raw JSON object a question-generation LLM call parses into. -/
structure RawQuestion where
  question_text : Option String := none
  question_type : Option String := none
  skill_area : Option String := none
  difficulty_level : Option Int := none
  expected_answer_format : Option String := none
  evaluation_criteria : Option String := none
deriving DecidableEq

/-- The validated question dict returned by `_generate_next_question`. -/
structure QuestionData where
  question_text : String
  question_type : String
  difficulty_level : Int
  skill_area : String
  expected_answer_format : String
  evaluation_criteria : String
deriving DecidableEq

def validTypes : List String := ["text", "excel_upload", "scenario"]

/-- Required-field validation of `_generate_next_question`: the three
required fields present and truthy (non-empty). -/
def validRaw (r : RawQuestion) : Bool :=
  (r.question_text.getD "" != "") && (r.question_type.getD "" != "") &&
    (r.skill_area.getD "" != "")

/-- One attempt of the question-generation retry loop: a transport failure or
a response missing required fields raises and moves to the next attempt. -/
def questionAttempt (o : Option RawQuestion) : Option RawQuestion :=
  o.bind (fun r => if validRaw r then some r else none)

/-- Coercions applied to an accepted response: invalid type becomes "text",
out-of-list skill becomes the first available entry (`available_skills[0]` in
Python; `availableSkills` is provably never empty, so the `headD` default is
never consulted), missing optional fields get fixed defaults. -/
def acceptedQuestion (difficulty : Int) (available : List String) (r : RawQuestion) :
    QuestionData :=
  let ty := r.question_type.getD ""
  let sk := r.skill_area.getD ""
  { question_text := r.question_text.getD ""
    question_type := if ty ∈ validTypes then ty else "text"
    difficulty_level := r.difficulty_level.getD difficulty
    skill_area := if sk ∈ available then sk
                  else available.headD "Basic Functions (SUM, AVERAGE, COUNT)"
    expected_answer_format := r.expected_answer_format.getD "Detailed explanation"
    evaluation_criteria := r.evaluation_criteria.getD "Knowledge accuracy and communication clarity" }

/-- The canned question used after 3 failed generation attempts. -/
def fallbackQuestion (difficulty : Int) (available : List String) : QuestionData :=
  { question_text := "Explain how to use basic Excel functions for data analysis. Specifically, describe when and how you would use SUM, AVERAGE, and COUNT functions in a real-world scenario."
    question_type := "text"
    difficulty_level := max 1 (min 3 difficulty)
    skill_area := available.headD "Basic Functions (SUM, AVERAGE, COUNT)"
    expected_answer_format := "Detailed explanation with examples"
    evaluation_criteria := "Understanding of basic functions and practical application" }

/-- The `QuestionHistory` record appended for a generated question. -/
def mkQuestionRecord (qc : Nat) (q : QuestionData) : QuestionHistory :=
  { question_id := qc, question_text := q.question_text, question_type := q.question_type,
    difficulty_level := q.difficulty_level, skill_area := q.skill_area }

/-- `tested_skills.add` (set add, modelled as append-if-absent). -/
def addTestedSkill (tested : List String) (s : String) : List String :=
  if s ∈ tested then tested else tested ++ [s]

/-- `_generate_next_question`: increments the counter once (before any
attempt), takes the first LLM attempt passing required-field validation
(with coercions), else the canned fallback; appends the record to history and
marks the skill tested. -/
def generateNextQuestion (a : Agent) (attempts : List (Option RawQuestion)) :
    Agent × QuestionData :=
  let st := a.state
  let qc := st.question_count + 1
  let available := availableSkills a.tested_skills
  let q :=
    match firstSome (attempts.map questionAttempt) with
    | some r => acceptedQuestion st.current_difficulty available r
    | none => fallbackQuestion st.current_difficulty available
  ({ a with
      tested_skills := addTestedSkill a.tested_skills q.skill_area
      state := { st with
        question_count := qc
        question_history := st.question_history ++ [mkQuestionRecord qc q] } }, q)

/-- The evaluation dict `_evaluate_response` hands back to the questioning
handler. -/
structure EvalDict where
  score : ℚ
  feedback : String
  strengths : List String := []
  improvements : List String := []
  category_scores : List (String × ℚ) := []
  error : Bool := false
deriving DecidableEq

def toEvalDict (r : EvaluationResult) : EvalDict :=
  { score := r.score, feedback := r.feedback, strengths := r.strengths,
    improvements := r.improvements, category_scores := r.category_scores }

/-- Result dict of `_evaluate_response` when the evaluator is absent: the
internal ValueError is retried 3 times and then converted to this payload, so
`process_response` never sees an exception from evaluation. -/
def evalFailureDict : EvalDict :=
  { score := 0
    feedback := "Unable to evaluate response after 3 attempts. Please try again."
    strengths := []
    improvements := ["Please resubmit your response"]
    error := true }

/-- One externally-submitted turn together with the oracle values of every
external call the turn may make. -/
structure Turn where
  input : String := ""
  file : Option String := none
  genAttempts : List (Option RawQuestion) := [none, none, none]
  evalAttempts : List (Option RawEval) := [none, none, none]
  wb : Except String Workbook := .error ""
  pdr : Except String DataFrame := .error ""

/-- `_evaluate_response`: route on file presence.  With the evaluator
configured, both evaluator entry points are total (they contain their own
retry-and-fallback), so the retry loop here returns on its first attempt. -/
def evaluateResponse (a : Agent) (t : Turn) : EvalDict :=
  if a.evaluatorPresent then
    match t.file with
    | some _ => toEvalDict (evaluate_excel_upload t.wb t.pdr t.evalAttempts)
    | none => toEvalDict (evaluate_text_answer t.evalAttempts t.input)
  else evalFailureDict

/-- `_adapt_difficulty`. -/
def adaptDifficulty (d : Int) (s : ℚ) : Int :=
  if 17 / 2 ≤ s then min 5 (d + 1)
  else if s ≤ 4 then max 1 (d - 1)
  else d

/-- The turn-result dict; absent keys are `none`. -/
structure TurnResult where
  error : Option String := none
  phase : Option String := none
  message : Option String := none
  question : Option QuestionData := none
  question_id : Option Nat := none
  progress : Option String := none
  evaluation : Option EvalDict := none
  overall_score : Option ℚ := none
  next_action : Option String := none
deriving DecidableEq

def progressString (st : InterviewState) : String :=
  "Question " ++ toString st.question_count ++ " of " ++ toString st.max_questions

/-- `_handle_wrap_up`: move to Completed, record the mean of the recorded
scores (0 if none).  The summary message interpolates formatted numbers; it
is represented by its first line, which no claim inspects. -/
def handleWrapUp (a : Agent) : Agent × TurnResult :=
  let overall := meanD (a.state.question_history.filterMap (fun q => q.score))
  let a1 := { a with state := { a.state with
                current_phase := .completed, overall_score := some overall } }
  (a1, { phase := some InterviewPhase.completed.value
         message := some ("Thank you for completing the Excel interview, " ++
           (a.state.candidate_name.getD "") ++ "!")
         overall_score := some overall
         next_action := some "show_report" })

/-- The record update applied to the active question when a turn answers it:
the evaluation fields are applied as one group. -/
def answeredRecord (t : Turn) (ed : EvalDict) (q : QuestionHistory) : QuestionHistory :=
  { q with answer := some t.input, file_upload := t.file,
           score := some ed.score, feedback := some ed.feedback,
           strengths := ed.strengths, improvements := ed.improvements }

/-- Tail of `_handle_questioning_phase`: wrap up once the counter has reached
the maximum, else generate the next question. -/
def questioningAdvance (a : Agent) (ed : Option EvalDict) (t : Turn) : Agent × TurnResult :=
  if a.state.max_questions ≤ a.state.question_count then
    handleWrapUp { a with state := { a.state with current_phase := .wrap_up } }
  else
    let g := generateNextQuestion a t.genAttempts
    (g.1, { phase := some g.1.state.current_phase.value
            evaluation := ed
            question := some g.2
            question_id := some g.1.state.question_count
            progress := some (progressString g.1.state)
            next_action := some "await_answer" })

/-- The agent after the active question has been answered: the evaluation
fields are written onto the last history record and the difficulty adapted
from the just-computed score. -/
def answeredAgent (a : Agent) (t : Turn) : Agent :=
  let ed := evaluateResponse a t
  { a with state := { a.state with
      question_history := updateLast (answeredRecord t ed) a.state.question_history
      current_difficulty := adaptDifficulty a.state.current_difficulty ed.score } }

/-- `_handle_questioning_phase`: if there is an active question, store the
answer, evaluate it, store the evaluation and adapt difficulty; then advance. -/
def handleQuestioning (a : Agent) (t : Turn) : Agent × TurnResult :=
  match a.state.question_history with
  | [] => questioningAdvance a none t
  | _ :: _ => questioningAdvance (answeredAgent a t) (some (evaluateResponse a t)) t

/-- `_handle_introduction`: capture the stripped name, move to Questioning,
generate the first question. -/
def handleIntroduction (a : Agent) (t : Turn) : Agent × TurnResult :=
  let name := pyStrip t.input
  let a1 := { a with state := { a.state with
                candidate_name := some name, current_phase := .questioning } }
  let g := generateNextQuestion a1 t.genAttempts
  (g.1, { phase := some g.1.state.current_phase.value
          message := some ("Great to meet you, " ++ name ++
            "! Let\x27s begin with your first question.")
          question := some g.2
          question_id := some g.1.state.question_count
          progress := some (progressString g.1.state)
          next_action := some "await_answer" })

/-- `process_response`: dispatch on the current phase.  Every handler in the
embedding is total, so the top-level exception handler of the Python code
never fires.  The Completed phase falls into the `else` branch, which returns
a dict holding only the error key. -/
def processResponse (a : Agent) (t : Turn) : Agent × TurnResult :=
  match a.state.current_phase with
  | .introduction => handleIntroduction a t
  | .questioning => handleQuestioning a t
  | .wrap_up => handleWrapUp a
  | .completed => (a, { error := some "Invalid interview phase" })

/-- First line of the fixed introduction message (no claim inspects it). -/
def introductionMessage : String := "Hello! I\x27m your AI Excel Interview Assistant."

/-- `start_interview`: replace the state with a fresh `InterviewState` (the
fresh session id, a timestamp in Python, is a parameter) and set the phase to
Introduction; `tested_skills` lives on the agent and is untouched. -/
def startInterview (a : Agent) (sid : String) : Agent × TurnResult :=
  let a1 := { a with state := { session_id := sid, current_phase := .introduction } }
  (a1, { phase := some InterviewPhase.introduction.value
         message := some introductionMessage
         question_id := none
         next_action := some "await_name" })

/-- A sequence of turns processed through `process_response`. -/
def runTurns (a : Agent) (ts : List Turn) : Agent :=
  ts.foldl (fun acc t => (processResponse acc t).1) a

/- ## Shared lemmas -/

theorem firstSome_mem {l : List (Option α)} {a : α} (h : firstSome l = some a) :
    some a ∈ l := by
  induction l with
  | nil => simp [firstSome] at h
  | cons o rest ih =>
    cases o with
    | none =>
      rw [firstSome] at h
      exact List.mem_cons_of_mem _ (ih h)
    | some b =>
      rw [firstSome] at h
      rw [h]
      exact List.mem_cons_self _ _

theorem round1_bounds {q : ℚ} {lo hi : ℤ} (h1 : (lo : ℚ) ≤ q) (h2 : q ≤ (hi : ℚ)) :
    (lo : ℚ) ≤ round1 q ∧ round1 q ≤ (hi : ℚ) := by
  have h10 : (0 : ℚ) < 10 := by norm_num
  have hl : (lo * 10 : ℤ) ≤ round (q * 10) := by
    rw [round_eq, Int.le_floor]
    push_cast
    linarith
  have hh : round (q * 10) ≤ hi * 10 := by
    rw [round_eq]
    have h3 : ⌊q * 10 + 1 / 2⌋ < hi * 10 + 1 := by
      rw [Int.floor_lt]
      push_cast
      linarith
    omega
  constructor
  · rw [round1, le_div_iff₀ h10]
    calc (lo : ℚ) * 10 = ((lo * 10 : ℤ) : ℚ) := by push_cast; ring
    _ ≤ _ := by exact_mod_cast hl
  · rw [round1, div_le_iff₀ h10]
    calc ((round (q * 10) : ℤ) : ℚ) ≤ ((hi * 10 : ℤ) : ℚ) := by exact_mod_cast hh
    _ = (hi : ℚ) * 10 := by push_cast; ring

theorem round1_eq {q : ℚ} {n : ℤ} (h1 : (n : ℚ) ≤ q * 10 + 1 / 2)
    (h2 : q * 10 + 1 / 2 < (n : ℚ) + 1) : round1 q = (n : ℚ) / 10 := by
  rw [round1, round_eq]
  have hf : ⌊q * 10 + 1 / 2⌋ = n := by
    rw [Int.floor_eq_iff]
    exact ⟨h1, by exact_mod_cast h2⟩
  rw [hf]

theorem round1_clamp1_bounds (s : ℚ) :
    1 ≤ round1 (max 1 (min 10 s)) ∧ round1 (max 1 (min 10 s)) ≤ 10 := by
  have h1 : ((1 : ℤ) : ℚ) ≤ max 1 (min 10 s) := by
    push_cast
    exact le_max_left _ _
  have h2 : max 1 (min 10 s) ≤ ((10 : ℤ) : ℚ) := by
    push_cast
    exact max_le (by norm_num) (min_le_left _ _)
  have h := round1_bounds h1 h2
  exact ⟨by exact_mod_cast h.1, by exact_mod_cast h.2⟩

theorem clamp0_bounds (x : ℚ) : 0 ≤ max 0 (min 10 x) ∧ max 0 (min 10 x) ≤ 10 :=
  ⟨le_max_left _ _, max_le (by norm_num) (min_le_left _ _)⟩

theorem dropLast_append_singleton (l : List α) (x : α) : (l ++ [x]).dropLast = l := by
  simp

theorem updateLast_length (f : α → α) (l : List α) :
    (updateLast f l).length = l.length := by
  induction l with
  | nil => rfl
  | cons x xs ih =>
    cases xs with
    | nil => rfl
    | cons y ys => simpa [updateLast] using ih

theorem updateLast_forall {P : α → Prop} (f : α → α) (l : List α)
    (h1 : ∀ x ∈ l.dropLast, P x) (h2 : ∀ x, P (f x)) :
    ∀ x ∈ updateLast f l, P x := by
  induction l with
  | nil => simp [updateLast]
  | cons x xs ih =>
    cases xs with
    | nil =>
      intro z hz
      rw [updateLast] at hz
      rcases List.mem_singleton.mp hz with rfl
      exact h2 x
    | cons y ys =>
      intro z hz
      rw [updateLast] at hz
      rcases List.mem_cons.mp hz with rfl | hz2
      · exact h1 z (by simp)
      · refine ih ?_ z hz2
        intro w hw
        exact h1 w (by simp [List.dropLast] at hw ⊢; exact Or.inr hw)

theorem generateNextQuestion_state (a : Agent) (att : List (Option RawQuestion)) :
    (generateNextQuestion a att).1.state.question_count = a.state.question_count + 1 ∧
    (generateNextQuestion a att).1.state.current_phase = a.state.current_phase ∧
    (generateNextQuestion a att).1.state.max_questions = a.state.max_questions ∧
    (generateNextQuestion a att).1.state.current_difficulty = a.state.current_difficulty ∧
    (generateNextQuestion a att).1.state.question_history =
      a.state.question_history ++
        [mkQuestionRecord (a.state.question_count + 1) (generateNextQuestion a att).2] ∧
    (generateNextQuestion a att).1.evaluatorPresent = a.evaluatorPresent :=
  ⟨rfl, rfl, rfl, rfl, rfl, rfl⟩

theorem availableSkills_ne_nil (tested : List String) : availableSkills tested ≠ [] := by
  simp only [availableSkills]
  split
  · simp [skillAreas]
  · assumption

theorem headD_mem {l : List α} (h : l ≠ []) (d : α) : l.headD d ∈ l := by
  cases l with
  | nil => exact absurd rfl h
  | cons x xs => exact List.mem_cons_self _ _

/- ## Claims -/

/-- C2: counterexample.  The claim says input in the Completed phase is a
no-op report request and not an error; the code returns the dict
`{"error": "Invalid interview phase"}`, an error result. -/
theorem C2_counterexample :
    ((processResponse { state := { current_phase := .completed } } { }).2).error =
      some "Invalid interview phase" := rfl

/-- C2 (amended): every input submitted while the session is Completed leaves
the agent unchanged and returns a result whose only content is the structured
error "Invalid interview phase" — it is an error result, not a no-op report
request. -/
theorem C2_completed_phase_returns_error (a : Agent) (t : Turn)
    (h : a.state.current_phase = .completed) :
    processResponse a t = (a, { error := some "Invalid interview phase" }) := by
  simp [processResponse, h]

theorem C2_completed_phase_returns_error_witness :
    ({ state := { current_phase := .completed } } : Agent).state.current_phase = .completed ∧
    processResponse { state := { current_phase := .completed } } { } =
      ({ state := { current_phase := .completed } },
       { error := some "Invalid interview phase" }) :=
  ⟨rfl, C2_completed_phase_returns_error _ _ rfl⟩

/-- C5: at wrap-up the session sets `overall_score` to the arithmetic mean of
all non-null per-question scores in the history (0 if none), transitions to
Completed, leaves the history untouched, and recomputing from the same
history (running wrap-up again) yields the same value. -/
theorem C5_wrap_up_mean_and_complete (a : Agent) :
    (handleWrapUp a).1.state.current_phase = .completed ∧
    (handleWrapUp a).1.state.overall_score =
      some (meanD (a.state.question_history.filterMap (fun q => q.score))) ∧
    (handleWrapUp a).1.state.question_history = a.state.question_history ∧
    (handleWrapUp (handleWrapUp a).1).1.state.overall_score =
      (handleWrapUp a).1.state.overall_score := by
  refine ⟨rfl, rfl, rfl, ?_⟩
  simp [handleWrapUp]

/-- C10: `start_interview` replaces the state with a fresh one (Introduction
phase, zero questions, difficulty 2, empty history, the freshly generated
session id) but leaves `tested_skills` — and hence the available-skill list,
including its reset-on-exhaustion behavior — exactly as before. -/
theorem C10_restart_preserves_tested_skills (a : Agent) (sid : String) :
    (startInterview a sid).1.tested_skills = a.tested_skills ∧
    (startInterview a sid).1.state.current_phase = .introduction ∧
    (startInterview a sid).1.state.question_count = 0 ∧
    (startInterview a sid).1.state.current_difficulty = 2 ∧
    (startInterview a sid).1.state.question_history = [] ∧
    (startInterview a sid).1.state.max_questions = 5 ∧
    (startInterview a sid).1.state.candidate_name = none ∧
    (startInterview a sid).1.state.session_id = sid ∧
    availableSkills (startInterview a sid).1.tested_skills =
      availableSkills a.tested_skills :=
  ⟨rfl, rfl, rfl, rfl, rfl, rfl, rfl, rfl, rfl⟩

/-- C6: counterexample.  The claim says every answer of fewer than 10 words
scores at most 4.0 under the heuristic fallback.  The 4-word answer
"excel formula function cell" matches 4 keywords, so the score is
5.0 − 2.0 + min(2.0, 4·0.3) = 4.2 > 4.0. -/
theorem C6_counterexample :
    (pyWords "excel formula function cell").length < 10 ∧
    (createBasicTextEvaluation "excel formula function cell").score = 21 / 5 ∧
    ¬ (createBasicTextEvaluation "excel formula function cell").score ≤ 4 := by
  have hwords : (pyWords "excel formula function cell").length = 4 := by decide
  have hfound : excelTerms.filter
      (fun t => strContains (pyLower "excel formula function cell") (pyLower t)) =
      ["excel", "formula", "function", "cell"] := by decide
  have hscore : (createBasicTextEvaluation "excel formula function cell").score = 21 / 5 := by
    simp only [createBasicTextEvaluation, hfound, hwords]
    norm_num [min_def, max_def]
    rw [@round1_eq _ 42 (by norm_num) (by norm_num)]
    norm_num
  exact ⟨by omega, hscore, by rw [hscore]; norm_num⟩

/-- C6 (amended): an answer of fewer than 10 words scores at most 5.0 (base
5.0, minus 2.0 for brevity, plus a keyword bonus capped at 2.0), and at least
1.0; the clamp to [1,10] is respected. -/
theorem C6_short_answer_bound (answer : String)
    (h : (pyWords answer).length < 10) :
    1 ≤ (createBasicTextEvaluation answer).score ∧
    (createBasicTextEvaluation answer).score ≤ 5 := by
  have h50 : ¬ (50 ≤ (pyWords answer).length) := by omega
  have h25 : ¬ (25 ≤ (pyWords answer).length) := by omega
  have hscore : (createBasicTextEvaluation answer).score =
      round1 (max 1 (min 10 ((5 : ℚ) + (-2) +
        min 2 (((excelTerms.filter
          (fun t => strContains (pyLower answer) (pyLower t))).length : ℚ) * (3 / 10))))) := by
    simp [createBasicTextEvaluation, h50, h25, h]
  rw [hscore]
  have hb0 : (0 : ℚ) ≤ min 2 (((excelTerms.filter
      (fun t => strContains (pyLower answer) (pyLower t))).length : ℚ) * (3 / 10)) :=
    le_min (by norm_num) (by positivity)
  have hb2 : min 2 (((excelTerms.filter
      (fun t => strContains (pyLower answer) (pyLower t))).length : ℚ) * (3 / 10)) ≤ 2 :=
    min_le_left _ _
  have hlo : ((1 : ℤ) : ℚ) ≤ max 1 (min 10 ((5 : ℚ) + (-2) +
      min 2 (((excelTerms.filter
        (fun t => strContains (pyLower answer) (pyLower t))).length : ℚ) * (3 / 10)))) := by
    push_cast
    exact le_max_left _ _
  have hhi : max 1 (min 10 ((5 : ℚ) + (-2) +
      min 2 (((excelTerms.filter
        (fun t => strContains (pyLower answer) (pyLower t))).length : ℚ) * (3 / 10)))) ≤
      ((5 : ℤ) : ℚ) := by
    push_cast
    refine max_le (by norm_num) (le_trans (min_le_right _ _) (by linarith))
  have hr := round1_bounds hlo hhi
  exact ⟨by exact_mod_cast hr.1, by exact_mod_cast hr.2⟩

theorem C6_short_answer_bound_witness :
    (pyWords "hi").length < 10 ∧
    (1 ≤ (createBasicTextEvaluation "hi").score ∧
      (createBasicTextEvaluation "hi").score ≤ 5) :=
  ⟨by decide, C6_short_answer_bound "hi" (by decide)⟩

/-- C1: counterexample.  The claim says an upload whose bytes cannot be
parsed yields exactly score 2.0 with the fixed verify-file-format
improvements, bypassing the LLM and heuristic paths.  On such bytes the
analyzer records the failure in-band and evaluation proceeds; with the LLM
path exhausted the analysis-based heuristic returns score 1.0 and its own
improvement list. -/
theorem C1_counterexample :
    (evaluate_excel_upload (.error "File is not a zip file")
        (.error "File is not a zip file") [none, none, none]).score = 1 ∧
    (evaluate_excel_upload (.error "File is not a zip file")
        (.error "File is not a zip file") [none, none, none]).score ≠ 2 ∧
    (evaluate_excel_upload (.error "File is not a zip file")
        (.error "File is not a zip file") [none, none, none]).improvements ≠
      ["Verify file format and structure", "Ensure file is not corrupted",
       "Try uploading the file again"] := by
  have hred : evaluate_excel_upload (.error "File is not a zip file")
      (.error "File is not a zip file") [none, none, none] =
      analysisBasedEvaluation { errors :=
        ["File analysis error: " ++ "File is not a zip file"] } := rfl
  have hscore : (analysisBasedEvaluation
      ({ errors := ["File analysis error: " ++ "File is not a zip file"] } :
        ExcelAnalysis)).score = 1 := by
    simp only [analysisBasedEvaluation]
    norm_num [min_def, max_def]
    rw [@round1_eq _ 10 (by norm_num) (by norm_num)]
    norm_num
  refine ⟨by rw [hred, hscore], by rw [hred, hscore]; norm_num, ?_⟩
  rw [hred]
  simp [analysisBasedEvaluation]

/-- C1 (amended): for an upload whose bytes cannot be parsed, the analyzer
records the failure in-band (`file_readable = false`, non-empty error list)
instead of signalling a hard failure, so the fixed score-2.0 short-circuit is
not taken; the LLM scoring path is still attempted, and whenever it is
exhausted the analysis-based heuristic produces score 1.0, empty strengths,
and an improvements list led by the file-format advice. -/
theorem C1_unparseable_upload_uses_heuristic (e : String) (pdr : Except String DataFrame)
    (attempts : List (Option RawEval))
    (hfail : firstSome (attempts.map excelLLMAttempt) = none) :
    (comprehensiveExcelAnalysis (.error e) pdr).file_readable = false ∧
    (comprehensiveExcelAnalysis (.error e) pdr).errors ≠ [] ∧
    evaluate_excel_upload (.error e) pdr attempts =
      { score := 1
        feedback := "Analysis-based evaluation: File could not be read properly."
        strengths := []
        improvements := ["Ensure file is in correct Excel format (.xlsx or .xls)",
                         "Include relevant data in the spreadsheet",
                         "Include relevant formulas to solve the problem",
                         "Address file structure issues"] } := by
  refine ⟨rfl, by simp [comprehensiveExcelAnalysis], ?_⟩
  have hred : evaluate_excel_upload (.error e) pdr attempts =
      analysisBasedEvaluation { errors := ["File analysis error: " ++ e] } := by
    rw [evaluate_excel_upload, hfail]
    exact rfl
  rw [hred]
  have hscore : (analysisBasedEvaluation
      ({ errors := ["File analysis error: " ++ e] } : ExcelAnalysis)).score = 1 := by
    simp only [analysisBasedEvaluation]
    norm_num [min_def, max_def]
    rw [@round1_eq _ 10 (by norm_num) (by norm_num)]
    norm_num
  have hrest : (analysisBasedEvaluation
      ({ errors := ["File analysis error: " ++ e] } : ExcelAnalysis)) =
      { score := (analysisBasedEvaluation
          ({ errors := ["File analysis error: " ++ e] } : ExcelAnalysis)).score
        feedback := "Analysis-based evaluation: File could not be read properly."
        strengths := []
        improvements := ["Ensure file is in correct Excel format (.xlsx or .xls)",
                         "Include relevant data in the spreadsheet",
                         "Include relevant formulas to solve the problem",
                         "Address file structure issues"] } := rfl
  rw [hrest, hscore]

theorem C1_unparseable_upload_uses_heuristic_witness :
    firstSome (([none, none, none] : List (Option RawEval)).map excelLLMAttempt) = none ∧
    (evaluate_excel_upload (.error "x") (.error "y") [none, none, none]).score = 1 := by
  refine ⟨rfl, ?_⟩
  rw [(C1_unparseable_upload_uses_heuristic "x" (.error "y") [none, none, none] rfl).2.2]

theorem createBasicTextEvaluation_bounds (answer : String) :
    1 ≤ (createBasicTextEvaluation answer).score ∧
    (createBasicTextEvaluation answer).score ≤ 10 :=
  round1_clamp1_bounds _

theorem analysisBasedEvaluation_bounds (an : ExcelAnalysis) :
    1 ≤ (analysisBasedEvaluation an).score ∧ (analysisBasedEvaluation an).score ≤ 10 :=
  round1_clamp1_bounds _

theorem mkTextLLMResult_bounds (r : RawEval) :
    0 ≤ (mkTextLLMResult r).score ∧ (mkTextLLMResult r).score ≤ 10 :=
  clamp0_bounds _

theorem mkExcelLLMResult_bounds (r : RawEval) :
    0 ≤ (mkExcelLLMResult r).score ∧ (mkExcelLLMResult r).score ≤ 10 :=
  clamp0_bounds _

theorem textLLMAttempt_some {o : Option RawEval} {res : EvaluationResult}
    (h : textLLMAttempt o = some res) : ∃ r, res = mkTextLLMResult r := by
  cases o with
  | none => simp [textLLMAttempt] at h
  | some r =>
    by_cases hv : validateEvaluationResponse r
    · refine ⟨r, ?_⟩
      simp [textLLMAttempt, hv] at h
      exact h.symm
    · simp [textLLMAttempt, hv] at h

theorem excelLLMAttempt_some {o : Option RawEval} {res : EvaluationResult}
    (h : excelLLMAttempt o = some res) : ∃ r, res = mkExcelLLMResult r := by
  cases o with
  | none => simp [excelLLMAttempt] at h
  | some r =>
    by_cases hv : validateEvaluationResponse r
    · refine ⟨r, ?_⟩
      simp [excelLLMAttempt, hv] at h
      exact h.symm
    · simp [excelLLMAttempt, hv] at h

/-- C9: every `EvaluationResult` built by the evaluator has a score in
[0,10], on every path: successful LLM text or Excel scoring (clamped to
[0,10]), the heuristic text fallback and the analysis-based Excel fallback
(both clamped to [1,10] ⊆ [0,10]), and the (unreachable) hard file-format
failure result (fixed 2.0). -/
theorem C9_every_score_in_range :
    (∀ (attempts : List (Option RawEval)) (answer : String),
        0 ≤ (evaluate_text_answer attempts answer).score ∧
        (evaluate_text_answer attempts answer).score ≤ 10) ∧
    (∀ (wb : Except String Workbook) (pdr : Except String DataFrame)
        (attempts : List (Option RawEval)),
        0 ≤ (evaluate_excel_upload wb pdr attempts).score ∧
        (evaluate_excel_upload wb pdr attempts).score ≤ 10) ∧
    (∀ answer : String,
        0 ≤ (createBasicTextEvaluation answer).score ∧
        (createBasicTextEvaluation answer).score ≤ 10) ∧
    (∀ an : ExcelAnalysis,
        0 ≤ (analysisBasedEvaluation an).score ∧
        (analysisBasedEvaluation an).score ≤ 10) ∧
    (∀ msg : String, (excelFileErrorResult msg).score = 2 ∧
        0 ≤ (excelFileErrorResult msg).score ∧ (excelFileErrorResult msg).score ≤ 10) := by
  refine ⟨?_, ?_, ?_, ?_, ?_⟩
  · intro attempts answer
    rw [evaluate_text_answer]
    cases hfs : firstSome (attempts.map textLLMAttempt) with
    | none =>
      have h := createBasicTextEvaluation_bounds answer
      exact ⟨le_trans (by norm_num) h.1, h.2⟩
    | some res =>
      obtain ⟨o, _, hoa⟩ := List.mem_map.mp (firstSome_mem hfs)
      obtain ⟨r, rfl⟩ := textLLMAttempt_some hoa
      exact mkTextLLMResult_bounds r
  · intro wb pdr attempts
    rw [evaluate_excel_upload]
    cases hfs : firstSome (attempts.map excelLLMAttempt) with
    | none =>
      have h := analysisBasedEvaluation_bounds (comprehensiveExcelAnalysis wb pdr)
      exact ⟨le_trans (by norm_num) h.1, h.2⟩
    | some res =>
      obtain ⟨o, _, hoa⟩ := List.mem_map.mp (firstSome_mem hfs)
      obtain ⟨r, rfl⟩ := excelLLMAttempt_some hoa
      exact mkExcelLLMResult_bounds r
  · intro answer
    have h := createBasicTextEvaluation_bounds answer
    exact ⟨le_trans (by norm_num) h.1, h.2⟩
  · intro an
    have h := analysisBasedEvaluation_bounds an
    exact ⟨le_trans (by norm_num) h.1, h.2⟩
  · intro msg
    have h2 : (excelFileErrorResult msg).score = 2 := rfl
    exact ⟨rfl, by rw [h2]; norm_num, by rw [h2]; norm_num⟩

theorem questionAttempt_valid {attempts : List (Option RawQuestion)} {r : RawQuestion}
    (h : firstSome (attempts.map questionAttempt) = some r) : validRaw r = true := by
  obtain ⟨o, _, hoa⟩ := List.mem_map.mp (firstSome_mem h)
  cases o with
  | none => simp [questionAttempt] at hoa
  | some r2 =>
    by_cases hv : validRaw r2
    · simp [questionAttempt, hv] at hoa
      rwa [← hoa]
    · simp [questionAttempt, hv] at hoa

/-- C7: every generated question record has non-empty text, a type among the
three allowed ones (an invalid type having been coerced to "text"), and a
skill area inside the currently-offered candidate list (an out-of-list skill
having been coerced to the first available entry); and when all three LLM
attempts fail, the canned fallback is returned, with its difficulty clamped
to [1,3]. -/
theorem C7_question_generation_guarantees (a : Agent)
    (attempts : List (Option RawQuestion)) :
    ((generateNextQuestion a attempts).2.question_text ≠ "" ∧
      (generateNextQuestion a attempts).2.question_type ∈ validTypes ∧
      (generateNextQuestion a attempts).2.skill_area ∈ availableSkills a.tested_skills) ∧
    (firstSome (attempts.map questionAttempt) = none →
      (generateNextQuestion a attempts).2 =
        fallbackQuestion a.state.current_difficulty (availableSkills a.tested_skills) ∧
      1 ≤ (generateNextQuestion a attempts).2.difficulty_level ∧
      (generateNextQuestion a attempts).2.difficulty_level ≤ 3) := by
  have hne := availableSkills_ne_nil a.tested_skills
  have hq : (generateNextQuestion a attempts).2 =
      match firstSome (attempts.map questionAttempt) with
      | some r =>
        acceptedQuestion a.state.current_difficulty (availableSkills a.tested_skills) r
      | none =>
        fallbackQuestion a.state.current_difficulty (availableSkills a.tested_skills) := rfl
  cases hfs : firstSome (attempts.map questionAttempt) with
  | none =>
    have hq2 : (generateNextQuestion a attempts).2 =
        fallbackQuestion a.state.current_difficulty (availableSkills a.tested_skills) := by
      rw [hq, hfs]
    refine ⟨⟨?_, ?_, ?_⟩, fun _ => ⟨hq2, ?_, ?_⟩⟩
    · rw [hq2]
      show "Explain how to use basic Excel functions for data analysis. Specifically, describe when and how you would use SUM, AVERAGE, and COUNT functions in a real-world scenario." ≠ ""
      decide
    · rw [hq2]
      show "text" ∈ validTypes
      decide
    · rw [hq2]
      exact headD_mem hne _
    · rw [hq2]
      show (1 : ℤ) ≤ max 1 (min 3 a.state.current_difficulty)
      omega
    · rw [hq2]
      show max 1 (min 3 a.state.current_difficulty) ≤ 3
      omega
  | some r =>
    have hv := questionAttempt_valid hfs
    simp only [validRaw, Bool.and_eq_true, bne_iff_ne, ne_eq] at hv
    have hq2 : (generateNextQuestion a attempts).2 =
        acceptedQuestion a.state.current_difficulty (availableSkills a.tested_skills) r := by
      rw [hq, hfs]
    constructor
    · refine ⟨?_, ?_, ?_⟩
      · rw [hq2]
        exact hv.1.1
      · rw [hq2]
        show (if r.question_type.getD "" ∈ validTypes then r.question_type.getD ""
              else "text") ∈ validTypes
        split
        · assumption
        · decide
      · rw [hq2]
        show (if r.skill_area.getD "" ∈ availableSkills a.tested_skills then
                r.skill_area.getD ""
              else (availableSkills a.tested_skills).headD
                "Basic Functions (SUM, AVERAGE, COUNT)") ∈ availableSkills a.tested_skills
        split
        · assumption
        · exact headD_mem hne _
    · intro hc
      cases hc

theorem C7_question_generation_guarantees_witness :
    firstSome (([none, none, none] : List (Option RawQuestion)).map questionAttempt) =
      none ∧
    ((generateNextQuestion { } [none, none, none]).2 =
        fallbackQuestion ({ } : Agent).state.current_difficulty
          (availableSkills ({ } : Agent).tested_skills) ∧
      1 ≤ (generateNextQuestion { } [none, none, none]).2.difficulty_level ∧
      (generateNextQuestion { } [none, none, none]).2.difficulty_level ≤ 3) :=
  ⟨rfl, (C7_question_generation_guarantees { } [none, none, none]).2 rfl⟩

theorem questioningAdvance_difficulty (a : Agent) (ed : Option EvalDict) (t : Turn) :
    (questioningAdvance a ed t).1.state.current_difficulty =
      a.state.current_difficulty := by
  rw [questioningAdvance]
  split
  · rfl
  · exact (generateNextQuestion_state a t.genAttempts).2.2.2.1

theorem adaptDifficulty_bounds {d : ℤ} (h1 : 1 ≤ d) (h5 : d ≤ 5) (s : ℚ) :
    1 ≤ adaptDifficulty d s ∧ adaptDifficulty d s ≤ 5 := by
  rw [adaptDifficulty]
  split
  · omega
  · split
    · omega
    · omega

/-- C4: the current difficulty always stays in [1,5]; a turn changes it
exactly when it answers an active question in the Questioning phase, and then
precisely by the adaptation rule (increment capped at 5 when the score is at
least 8.5, decrement floored at 1 when it is at most 4.0, unchanged
otherwise); no other part of turn processing modifies difficulty. -/
theorem C4_difficulty_adaptation (a : Agent) (t : Turn)
    (h1 : 1 ≤ a.state.current_difficulty) (h5 : a.state.current_difficulty ≤ 5) :
    (1 ≤ (processResponse a t).1.state.current_difficulty ∧
      (processResponse a t).1.state.current_difficulty ≤ 5) ∧
    (processResponse a t).1.state.current_difficulty =
      (if a.state.current_phase = .questioning ∧ a.state.question_history ≠ [] then
        adaptDifficulty a.state.current_difficulty (evaluateResponse a t).score
      else a.state.current_difficulty) ∧
    (∀ (d : ℤ) (s : ℚ), 17 / 2 ≤ s → adaptDifficulty d s = min 5 (d + 1)) ∧
    (∀ (d : ℤ) (s : ℚ), s ≤ 4 → adaptDifficulty d s = max 1 (d - 1)) ∧
    (∀ (d : ℤ) (s : ℚ), 4 < s → s < 17 / 2 → adaptDifficulty d s = d) := by
  have hframe : (processResponse a t).1.state.current_difficulty =
      (if a.state.current_phase = .questioning ∧ a.state.question_history ≠ [] then
        adaptDifficulty a.state.current_difficulty (evaluateResponse a t).score
      else a.state.current_difficulty) := by
    cases hp : a.state.current_phase with
    | introduction =>
      rw [if_neg (by simp [hp])]
      simp only [processResponse, hp]
      exact (generateNextQuestion_state { a with state := { a.state with
        candidate_name := some (pyStrip t.input), current_phase := .questioning } }
        t.genAttempts).2.2.2.1
    | questioning =>
      cases hh : a.state.question_history with
      | nil =>
        rw [if_neg (by simp [hh])]
        simp only [processResponse, hp, handleQuestioning, hh]
        exact questioningAdvance_difficulty a none t
      | cons q0 rest =>
        rw [if_pos ⟨rfl, by simp [hh]⟩]
        simp only [processResponse, hp, handleQuestioning, hh]
        rw [questioningAdvance_difficulty]
        rfl
    | wrap_up =>
      rw [if_neg (by simp [hp])]
      simp only [processResponse, hp]
      rfl
    | completed =>
      rw [if_neg (by simp [hp])]
      simp only [processResponse, hp]
  refine ⟨?_, hframe, ?_, ?_, ?_⟩
  · rw [hframe]
    split
    · exact adaptDifficulty_bounds h1 h5 _
    · exact ⟨h1, h5⟩
  · intro d s hs
    rw [adaptDifficulty, if_pos hs]
  · intro d s hs
    rw [adaptDifficulty, if_neg (by intro hc; linarith), if_pos hs]
  · intro d s hs1 hs2
    rw [adaptDifficulty, if_neg (by intro hc; linarith),
        if_neg (by intro hc; linarith)]

theorem C4_difficulty_adaptation_witness :
    (1 ≤ ({ } : Agent).state.current_difficulty ∧
      ({ } : Agent).state.current_difficulty ≤ 5) ∧
    (1 ≤ (processResponse { } { }).1.state.current_difficulty ∧
      (processResponse { } { }).1.state.current_difficulty ≤ 5) :=
  ⟨⟨by decide, by decide⟩, (C4_difficulty_adaptation { } { } (by decide) (by decide)).1⟩

/-- The recorded (non-null) scores of one skill area in a history — the
claim's "that skill's recorded scores". -/
def skillScores (s : String) (h : List QuestionHistory) : List ℚ :=
  (h.filter (fun q => q.skill_area = s)).filterMap (fun q => q.score)

theorem skillScores_snoc (s : String) (l : List QuestionHistory) (q : QuestionHistory) :
    skillScores s (l ++ [q]) =
      skillScores s l ++ (if q.skill_area = s then q.score.toList else []) := by
  by_cases hq : q.skill_area = s
  · rw [skillScores, skillScores, List.filter_append, List.filterMap_append, if_pos hq]
    congr 1
    cases hsc : q.score <;>
      simp [List.filter_cons, List.filter_nil, hq, List.filterMap, Option.toList, hsc]
  · rw [skillScores, skillScores, List.filter_append, List.filterMap_append, if_neg hq]
    congr 1
    simp [List.filter_cons, List.filter_nil, hq]

theorem skillScores_eq_nil {s : String} {l : List QuestionHistory}
    (h : s ∉ l.map (fun q => q.skill_area)) : skillScores s l = [] := by
  rw [skillScores]
  have hf : l.filter (fun q => q.skill_area = s) = [] := by
    rw [List.filter_eq_nil_iff]
    intro q hq
    simp only [decide_eq_true_eq]
    intro hqs
    exact h (List.mem_map.mpr ⟨q, hq, hqs⟩)
  rw [hf, List.filterMap_nil]

/-- Specification of the skill-grouping fold of `create_performance_report`:
the keys are exactly the distinct skill areas of the history (without
duplicates) and every entry accumulates exactly that skill's recorded
scores. -/
theorem groupFold_spec (h : List QuestionHistory) :
    ((h.foldl (fun m q => addToGroup m q.skill_area q.score) []).map Prod.fst).Nodup ∧
    (∀ s, s ∈ (h.foldl (fun m q => addToGroup m q.skill_area q.score) []).map Prod.fst ↔
      s ∈ h.map (fun q => q.skill_area)) ∧
    (∀ p ∈ h.foldl (fun m q => addToGroup m q.skill_area q.score) [],
      p.2.scores = skillScores p.1 h) := by
  induction h using List.reverseRecOn with
  | nil => simp
  | append_singleton l q ih =>
    obtain ⟨ihn, ihk, ihs⟩ := ih
    rw [List.foldl_append]
    simp only [List.foldl_cons, List.foldl_nil]
    rw [addToGroup]
    by_cases hmem : q.skill_area ∈
        (l.foldl (fun m q => addToGroup m q.skill_area q.score) []).map Prod.fst
    · rw [if_pos hmem]
      have hkeys : ((l.foldl (fun m q => addToGroup m q.skill_area q.score) []).map
          (fun p => if p.1 = q.skill_area then
            (p.1, { questions := p.2.questions + 1,
                    scores := p.2.scores ++ q.score.toList }) else p)).map Prod.fst =
          (l.foldl (fun m q => addToGroup m q.skill_area q.score) []).map Prod.fst := by
        rw [List.map_map]
        apply List.map_congr_left
        intro p _
        simp only [Function.comp_apply]
        split <;> rfl
      refine ⟨by rw [hkeys]; exact ihn, ?_, ?_⟩
      · intro s
        rw [hkeys, ihk, List.map_append, List.mem_append]
        constructor
        · exact fun h2 => Or.inl h2
        · rintro (h2 | h2)
          · exact h2
          · rcases List.mem_singleton.mp h2 with rfl
            exact (ihk _).mp hmem
      · intro p hp
        obtain ⟨p0, hp0, rfl⟩ := List.mem_map.mp hp
        by_cases hps : p0.1 = q.skill_area
        · rw [if_pos hps]
          show p0.2.scores ++ q.score.toList = skillScores p0.1 (l ++ [q])
          rw [skillScores_snoc, ihs p0 hp0, if_pos hps.symm]
        · rw [if_neg hps]
          rw [skillScores_snoc, ihs p0 hp0, if_neg (fun hc => hps hc.symm)]
          simp
    · rw [if_neg hmem]
      refine ⟨?_, ?_, ?_⟩
      · rw [List.map_append, List.nodup_append]
        refine ⟨ihn, by simp, ?_⟩
        intro s hs
        simp only [List.map_cons, List.map_nil, List.mem_singleton]
        intro hc
        rw [hc] at hs
        exact hmem hs
      · intro s
        rw [List.map_append, List.mem_append, ihk, List.map_append, List.mem_append]
        simp
      · intro p hp
        rcases List.mem_append.mp hp with hp2 | hp2
        · have hne : q.skill_area ≠ p.1 := by
            intro hc
            rw [hc] at hmem
            exact hmem (List.mem_map.mpr ⟨p, hp2, rfl⟩)
          rw [skillScores_snoc, ihs p hp2, if_neg hne]
          simp
        · rcases List.mem_singleton.mp hp2 with rfl
          show q.score.toList = skillScores q.skill_area (l ++ [q])
          rw [skillScores_snoc, if_pos rfl,
              skillScores_eq_nil (fun hc => hmem ((ihk _).mpr hc))]
          simp

theorem buildReport_skill_breakdown (d : InterviewSummary) :
    (buildReport d).skill_breakdown =
      (d.question_history.foldl (fun m q => addToGroup m q.skill_area q.score) []).map
        (fun p => (p.1, { average_score := round1 (meanD p.2.scores)
                          questions_asked := p.2.questions
                          performance_level := reportPerformanceLevel (meanD p.2.scores) })) := by
  exact List.map_map
    (fun p : String × GroupData × ℚ =>
      (p.1, ({ average_score := round1 p.2.2
               questions_asked := p.2.1.questions
               performance_level := reportPerformanceLevel p.2.2 } : ReportSkillEntry)))
    (fun p : String × GroupData => (p.1, p.2, meanD p.2.scores))
    (d.question_history.foldl (fun m q => addToGroup m q.skill_area q.score) [])

theorem buildReport_keys (d : InterviewSummary) :
    (buildReport d).skill_breakdown.map Prod.fst =
      (d.question_history.foldl (fun m q => addToGroup m q.skill_area q.score) []).map
        Prod.fst := by
  rw [buildReport_skill_breakdown]
  exact (List.map_map _ _ _).trans rfl

/-- C8 (amended): the report builder returns the no-data error with the empty
report payload exactly when the history is empty; on a non-empty history the
skill-breakdown keys are exactly the distinct skill areas present in the
history, and each entry's `average_score` equals the arithmetic mean of that
skill's recorded scores rounded to one decimal place (as Python's
`round(x, 1)` is applied before the value enters the report). -/
theorem C8_report_breakdown (d : InterviewSummary) :
    ((create_performance_report d).error.isSome ↔ d.question_history = []) ∧
    (d.question_history = [] →
      create_performance_report d =
        { error := some "No interview data available", report := none }) ∧
    (d.question_history ≠ [] →
      ∃ r, (create_performance_report d).report = some r ∧
        (r.skill_breakdown.map Prod.fst).Nodup ∧
        (∀ s, s ∈ r.skill_breakdown.map Prod.fst ↔
          s ∈ d.question_history.map (fun q => q.skill_area)) ∧
        ∀ p ∈ r.skill_breakdown,
          p.2.average_score = round1 (meanD (skillScores p.1 d.question_history))) := by
  by_cases hd : d.question_history = []
  · refine ⟨by simp [create_performance_report, hd], ?_, fun hc => absurd hd hc⟩
    intro _
    rw [create_performance_report, if_pos hd]
  · obtain ⟨hn, hk, hs⟩ := groupFold_spec d.question_history
    refine ⟨by simp [create_performance_report, hd], fun hc => absurd hc hd, ?_⟩
    intro _
    refine ⟨buildReport d, by rw [create_performance_report, if_neg hd], ?_, ?_, ?_⟩
    · rw [buildReport_keys]
      exact hn
    · intro s
      rw [buildReport_keys]
      exact hk s
    · intro p hp
      rw [buildReport_skill_breakdown] at hp
      obtain ⟨p0, hp0, rfl⟩ := List.mem_map.mp hp
      show round1 (meanD p0.2.scores) = round1 (meanD (skillScores p0.1 d.question_history))
      rw [hs p0 hp0]

/-- History used by the C8 counterexample and witness: one skill area with
recorded scores 7, 7 and 8, whose mean 22/3 is not a multiple of 0.1. -/
def c8History : List QuestionHistory :=
  [{ question_id := 1, question_text := "q", question_type := "text",
     difficulty_level := 2, skill_area := "A", score := some 7 },
   { question_id := 2, question_text := "q", question_type := "text",
     difficulty_level := 2, skill_area := "A", score := some 7 },
   { question_id := 3, question_text := "q", question_type := "text",
     difficulty_level := 2, skill_area := "A", score := some 8 }]

/-- C8: counterexample.  The claim says each breakdown entry's
`average_score` equals the arithmetic mean of the skill's recorded scores;
the report stores the mean rounded to one decimal, so for scores 7, 7, 8 it
holds 7.3 while the mean is 22/3 = 7.333... -/
theorem C8_counterexample :
    ((create_performance_report { question_history := c8History }).report.map
      (fun r => r.skill_breakdown.map (fun p => (p.1, p.2.average_score)))) =
      some [("A", 73 / 10)] ∧
    meanD (skillScores "A" c8History) = 22 / 3 ∧
    ((73 : ℚ) / 10) ≠ 22 / 3 := by
  have hmean : meanD ([7, 7, 8] : List ℚ) = 22 / 3 := by
    rw [meanD, if_neg (by simp)]
    norm_num
  have hfold : (c8History.foldl (fun m q => addToGroup m q.skill_area q.score) []) =
      [("A", { scores := [7, 7, 8], questions := 3 })] := by
    simp [c8History, addToGroup, Option.toList]
  have hscores : skillScores "A" c8History = [7, 7, 8] := by
    simp [skillScores, c8History]
  refine ⟨?_, by rw [hscores]; exact hmean, by norm_num⟩
  have hrep : (create_performance_report { question_history := c8History }).report =
      some (buildReport { question_history := c8History }) := by
    rw [create_performance_report, if_neg (by simp [c8History])]
  rw [hrep, Option.map_some', buildReport_skill_breakdown, hfold]
  simp only [List.map_cons, List.map_nil]
  rw [hmean, @round1_eq _ 73 (by norm_num) (by norm_num)]
  norm_num

theorem C8_report_breakdown_witness :
    ({ question_history := c8History } : InterviewSummary).question_history ≠ [] ∧
    (∃ r, (create_performance_report { question_history := c8History }).report = some r ∧
      (r.skill_breakdown.map Prod.fst).Nodup ∧
      (∀ s, s ∈ r.skill_breakdown.map Prod.fst ↔
        s ∈ ({ question_history := c8History } : InterviewSummary).question_history.map
          (fun q => q.skill_area)) ∧
      ∀ p ∈ r.skill_breakdown,
        p.2.average_score = round1 (meanD (skillScores p.1
          ({ question_history := c8History } : InterviewSummary).question_history))) :=
  ⟨by simp [c8History],
   (C8_report_breakdown { question_history := c8History }).2.2 (by simp [c8History])⟩

/- ## C3: run-level counting -/

/-- Invariant of the questioning loop after the introduction turn and `k`
answer turns (`k ≤ 4`): still Questioning, counter and history length both
`k + 1`, and every record but the active (last) one already answered and
scored. -/
def QInv (a : Agent) (k : Nat) : Prop :=
  a.state.current_phase = .questioning ∧
  a.state.max_questions = 5 ∧
  a.state.question_count = k + 1 ∧
  a.state.question_history.length = k + 1 ∧
  ∀ q ∈ a.state.question_history.dropLast, q.score.isSome ∧ q.answer.isSome

theorem questioningAdvance_gen (a : Agent) (ed : Option EvalDict) (t : Turn)
    (hlt : a.state.question_count < a.state.max_questions) :
    (questioningAdvance a ed t).1 = (generateNextQuestion a t.genAttempts).1 := by
  rw [questioningAdvance, if_neg (by omega)]

theorem questioningAdvance_wrap (a : Agent) (ed : Option EvalDict) (t : Turn)
    (hge : a.state.max_questions ≤ a.state.question_count) :
    (questioningAdvance a ed t).1 =
      (handleWrapUp { a with state :=
        { a.state with current_phase := .wrap_up } }).1 := by
  rw [questioningAdvance, if_pos hge]

theorem processResponse_questioning (a : Agent) (t : Turn)
    (hp : a.state.current_phase = .questioning)
    (hh : a.state.question_history ≠ []) :
    (processResponse a t).1 =
      (questioningAdvance (answeredAgent a t) (some (evaluateResponse a t)) t).1 := by
  simp only [processResponse, hp]
  rw [handleQuestioning]
  cases hcons : a.state.question_history with
  | nil => exact absurd hcons hh
  | cons q0 rest => rfl

theorem introStep (a : Agent) (t : Turn)
    (hp : a.state.current_phase = .introduction)
    (hc : a.state.question_count = 0)
    (hh : a.state.question_history = [])
    (hm : a.state.max_questions = 5) :
    QInv (processResponse a t).1 0 := by
  have hred : (processResponse a t).1 =
      (generateNextQuestion { a with state := { a.state with
        candidate_name := some (pyStrip t.input), current_phase := .questioning } }
        t.genAttempts).1 := by
    simp only [processResponse, hp, handleIntroduction]
  obtain ⟨hg1, hg2, hg3, hg4, hg5, hg6⟩ := generateNextQuestion_state
    { a with state := { a.state with
      candidate_name := some (pyStrip t.input), current_phase := .questioning } }
    t.genAttempts
  rw [QInv, hred]
  refine ⟨hg2, hg3.trans hm, ?_, ?_, ?_⟩
  · rw [hg1]
    show a.state.question_count + 1 = 0 + 1
    omega
  · rw [hg5, List.length_append]
    show a.state.question_history.length + 1 = 0 + 1
    rw [hh]
    rfl
  · rw [hg5]
    intro q hq
    rw [dropLast_append_singleton] at hq
    have hq2 : q ∈ a.state.question_history := hq
    rw [hh] at hq2
    cases hq2

theorem questioningStep (a : Agent) (t : Turn) (k : Nat)
    (hI : QInv a k) (hk : k + 1 < 5) : QInv (processResponse a t).1 (k + 1) := by
  obtain ⟨hp, hm, hc, hl, hs⟩ := hI
  have hh : a.state.question_history ≠ [] := by
    intro h0
    rw [h0] at hl
    simp at hl
  rw [QInv, processResponse_questioning a t hp hh]
  have hlt : (answeredAgent a t).state.question_count <
      (answeredAgent a t).state.max_questions := by
    show a.state.question_count < a.state.max_questions
    omega
  rw [questioningAdvance_gen _ _ _ hlt]
  obtain ⟨hg1, hg2, hg3, hg4, hg5, hg6⟩ :=
    generateNextQuestion_state (answeredAgent a t) t.genAttempts
  refine ⟨hg2.trans hp, hg3.trans hm, ?_, ?_, ?_⟩
  · rw [hg1]
    show a.state.question_count + 1 = k + 1 + 1
    omega
  · rw [hg5, List.length_append]
    show (updateLast (answeredRecord t (evaluateResponse a t))
      a.state.question_history).length + 1 = k + 1 + 1
    rw [updateLast_length]
    omega
  · rw [hg5]
    intro q hq
    rw [dropLast_append_singleton] at hq
    exact updateLast_forall _ _ hs (fun x => by simp [answeredRecord]) q hq

theorem questioningFinal (a : Agent) (t : Turn) (hI : QInv a 4) :
    (processResponse a t).1.state.current_phase = .completed ∧
    (processResponse a t).1.state.question_count = 5 ∧
    (processResponse a t).1.state.question_history.length = 5 ∧
    ∀ q ∈ (processResponse a t).1.state.question_history,
      q.score.isSome ∧ q.answer.isSome := by
  obtain ⟨hp, hm, hc, hl, hs⟩ := hI
  have hh : a.state.question_history ≠ [] := by
    intro h0
    rw [h0] at hl
    simp at hl
  rw [processResponse_questioning a t hp hh]
  have hge : (answeredAgent a t).state.max_questions ≤
      (answeredAgent a t).state.question_count := by
    show a.state.question_count ≥ a.state.max_questions
    omega
  rw [questioningAdvance_wrap _ _ _ hge]
  refine ⟨rfl, ?_, ?_, ?_⟩
  · show a.state.question_count = 5
    omega
  · show (updateLast (answeredRecord t (evaluateResponse a t))
      a.state.question_history).length = 5
    rw [updateLast_length]
    omega
  · show ∀ q ∈ updateLast (answeredRecord t (evaluateResponse a t))
      a.state.question_history, q.score.isSome ∧ q.answer.isSome
    exact updateLast_forall _ _ hs (fun x => by simp [answeredRecord])

theorem runInv (ts : List Turn) (a : Agent) (k : Nat)
    (hI : QInv a k) (hle : k + ts.length ≤ 4) :
    QInv (runTurns a ts) (k + ts.length) := by
  induction ts generalizing a k with
  | nil => simpa [runTurns] using hI
  | cons t rest ih =>
    have hlen : (t :: rest).length = rest.length + 1 := rfl
    rw [hlen] at hle
    have h1 : QInv (processResponse a t).1 (k + 1) :=
      questioningStep a t k hI (by omega)
    have h2 := ih (processResponse a t).1 (k + 1) h1 (by omega)
    have hrw : runTurns a (t :: rest) = runTurns (processResponse a t).1 rest := rfl
    rw [hrw, show k + (t :: rest).length = k + 1 + rest.length by simp; omega]
    exact h2

/-- C3: `question_count` rises by exactly 1 on every question-generating
call; starting a session from Introduction (fresh counters, default
`max_questions` 5), the introduction turn generates question 1 and after
exactly 5 answered turns the session is Completed with 5 questions generated,
all of them answered and scored — so exactly `max_questions` questions are
asked before wrap-up. -/
theorem C3_exactly_max_questions (a0 : Agent) (t0 : Turn) (ts : List Turn)
    (hp : a0.state.current_phase = .introduction)
    (hc : a0.state.question_count = 0)
    (hh : a0.state.question_history = [])
    (hm : a0.state.max_questions = 5)
    (hlen : ts.length = 5) :
    (∀ (a : Agent) (att : List (Option RawQuestion)),
      (generateNextQuestion a att).1.state.question_count =
        a.state.question_count + 1) ∧
    (processResponse a0 t0).1.state.question_count = 1 ∧
    (processResponse a0 t0).1.state.current_phase = .questioning ∧
    (runTurns (processResponse a0 t0).1 ts).state.current_phase = .completed ∧
    (runTurns (processResponse a0 t0).1 ts).state.question_count = 5 ∧
    (runTurns (processResponse a0 t0).1 ts).state.question_history.length = 5 ∧
    (∀ q ∈ (runTurns (processResponse a0 t0).1 ts).state.question_history,
      q.score.isSome ∧ q.answer.isSome) ∧
    (runTurns (processResponse a0 t0).1 ts.dropLast).state.current_phase =
      .questioning ∧
    (runTurns (processResponse a0 t0).1 ts.dropLast).state.question_count = 5 := by
  have hA : QInv (processResponse a0 t0).1 0 := introStep a0 t0 hp hc hh hm
  have hne : ts ≠ [] := by
    intro h0
    rw [h0] at hlen
    cases hlen
  have hsplit : ts.dropLast ++ [ts.getLast hne] = ts := List.dropLast_append_getLast hne
  have hinit : ts.dropLast.length = 4 := by
    have := List.length_dropLast ts
    omega
  have hrun : QInv (runTurns (processResponse a0 t0).1 ts.dropLast) 4 := by
    have h := runInv ts.dropLast (processResponse a0 t0).1 0 hA (by omega)
    rw [hinit] at h
    simpa using h
  have hpieces : runTurns (processResponse a0 t0).1 ts =
      (processResponse (runTurns (processResponse a0 t0).1 ts.dropLast)
        (ts.getLast hne)).1 := by
    conv_lhs => rw [← hsplit]
    rw [runTurns, List.foldl_append]
    rfl
  have hfin := questioningFinal (runTurns (processResponse a0 t0).1 ts.dropLast)
    (ts.getLast hne) hrun
  refine ⟨fun a att => (generateNextQuestion_state a att).1, ?_, hA.1, ?_, ?_, ?_, ?_,
    hrun.1, hrun.2.2.1⟩
  · exact hA.2.2.1
  · rw [hpieces]
    exact hfin.1
  · rw [hpieces]
    exact hfin.2.1
  · rw [hpieces]
    exact hfin.2.2.1
  · rw [hpieces]
    exact hfin.2.2.2

theorem C3_exactly_max_questions_witness :
    ({ } : Agent).state.current_phase = .introduction ∧
    ({ } : Agent).state.question_count = 0 ∧
    ({ } : Agent).state.question_history = ([] : List QuestionHistory) ∧
    ({ } : Agent).state.max_questions = 5 ∧
    ([{ }, { }, { }, { }, { }] : List Turn).length = 5 ∧
    ((runTurns (processResponse { } { }).1
        [{ }, { }, { }, { }, { }]).state.current_phase = .completed ∧
      (runTurns (processResponse { } { }).1
        [{ }, { }, { }, { }, { }]).state.question_count = 5) := by
  have h := C3_exactly_max_questions { } { } [{ }, { }, { }, { }, { }]
    rfl rfl rfl rfl rfl
  exact ⟨rfl, rfl, rfl, rfl, rfl, h.2.2.2.1, h.2.2.2.2.1⟩

end ExcelInterview
